import Mathlib

/-!
Verification of the WebAuthn-style passwordless server in `main.py`.

The server keeps two in-memory dictionaries, `users` (email to user record)
and `challenges` (email to pending challenge bytes), and exposes four
route handlers: `begin_register`, `finish_register`, `begin_login` and
`finish_login`.  We embed the dictionaries as association lists over
`String` keys, bytes as `List Nat`, and each handler as a pure function
that either returns the updated state or an error mirroring the Python
`HTTPException` / exception that the handler raises (every raise in the
source happens before any mutation, so an error leaves the state as it
was).  The external `webauthn` library calls are modelled from the spec's
Verifier contract; randomness (`secrets.token_bytes`, the library's
challenge generation) and the clock (`time.time()`) enter as explicit
parameters.
-/

/-- Python dict lookup `d.get(k)` on an association list: first binding wins. -/
def lookupKey {α : Type} (k : String) : List (String × α) → Option α
  | [] => none
  | (k', v) :: rest => if k' = k then some v else lookupKey k rest

/-- Python dict assignment `d[k] = v`: replace the binding in place, or append. -/
def insertKey {α : Type} (k : String) (v : α) : List (String × α) → List (String × α)
  | [] => [(k, v)]
  | (k', v') :: rest => if k' = k then (k, v) :: rest else (k', v') :: insertKey k v rest

/-- Python dict deletion `del d[k]`: remove every binding of the key. -/
def eraseKey {α : Type} (k : String) : List (String × α) → List (String × α)
  | [] => []
  | (k', v') :: rest => if k' = k then eraseKey k rest else (k', v') :: eraseKey k rest

/-! ## Base64url encoding, exactly as the handlers use it

`finish_register` stores `base64.urlsafe_b64encode(id).decode().rstrip('=')`;
`begin_login` decodes with `base64.urlsafe_b64decode(s + '=' * (4 - len(s) % 4))`.
CPython's (non-strict) `b64decode` ignores any run of trailing `=` characters,
which we model by stripping trailing `=` before decoding sextet groups. -/

/-- The base64url alphabet, in order. -/
def b64Chars : List Char :=
  ("ABCDEFGHIJKLMNOPQRSTUVWXYZabcdefghijklmnopqrstuvwxyz0123456789-_").data

/-- The alphabet character for a sextet value. -/
def sextetChar (n : Nat) : Char := b64Chars.getD n 'A'

def charSextetAux (c : Char) : List Char → Nat → Option Nat
  | [], _ => none
  | d :: rest, i => if d = c then some i else charSextetAux c rest (i + 1)

/-- The sextet value of an alphabet character, `none` for a foreign character. -/
def charSextet (c : Char) : Option Nat := charSextetAux c b64Chars 0

/-- `base64.urlsafe_b64encode`: bytes to padded base64url characters. -/
def encBytes : List Nat → List Char
  | [] => []
  | [a] => [sextetChar (a / 4), sextetChar (a % 4 * 16), '=', '=']
  | [a, b] => [sextetChar (a / 4), sextetChar (a % 4 * 16 + b / 16),
               sextetChar (b % 16 * 4), '=']
  | a :: b :: c :: rest =>
      sextetChar (a / 4) :: sextetChar (a % 4 * 16 + b / 16) ::
      sextetChar (b % 16 * 4 + c / 64) :: sextetChar (c % 64) :: encBytes rest

/-- The same encoding without padding characters (what `rstrip('=')` leaves). -/
def encNoPad : List Nat → List Char
  | [] => []
  | [a] => [sextetChar (a / 4), sextetChar (a % 4 * 16)]
  | [a, b] => [sextetChar (a / 4), sextetChar (a % 4 * 16 + b / 16),
               sextetChar (b % 16 * 4)]
  | a :: b :: c :: rest =>
      sextetChar (a / 4) :: sextetChar (a % 4 * 16 + b / 16) ::
      sextetChar (b % 16 * 4 + c / 64) :: sextetChar (c % 64) :: encNoPad rest

/-- Python `str.rstrip('=')`: drop the trailing run of `=` characters. -/
def rstripEq : List Char → List Char
  | [] => []
  | c :: rest =>
      match rstripEq rest with
      | [] => if c = '=' then [] else [c]
      | r => c :: r

/-- The credential id string stored by `finish_register` (line 102):
`base64.urlsafe_b64encode(credential_id).decode().rstrip('=')`. -/
def storedCredentialId (credential_id : List Nat) : String :=
  String.mk (rstripEq (encBytes credential_id))

/-- The padding appended by `begin_login` (line 130): `'=' * (4 - len(s) % 4)`. -/
def padFix (s : String) : String :=
  String.mk (List.replicate (4 - s.length % 4) '=')

/-- Decode a padding-free base64url character list into bytes; fails on a
foreign character or a leftover group of one character. -/
def decBody : List Char → Option (List Nat)
  | [] => some []
  | [c1, c2] =>
      match charSextet c1, charSextet c2 with
      | some w, some x => some [w * 4 + x / 16]
      | _, _ => none
  | [c1, c2, c3] =>
      match charSextet c1, charSextet c2, charSextet c3 with
      | some w, some x, some y => some [w * 4 + x / 16, x % 16 * 16 + y / 4]
      | _, _, _ => none
  | c1 :: c2 :: c3 :: c4 :: rest =>
      match charSextet c1, charSextet c2, charSextet c3, charSextet c4, decBody rest with
      | some w, some x, some y, some z, some bs =>
          some ((w * 4 + x / 16) :: (x % 16 * 16 + y / 4) :: (y % 4 * 64 + z) :: bs)
      | _, _, _, _, _ => none
  | [_] => none

/-- CPython's non-strict `base64.urlsafe_b64decode`: trailing padding is
ignored, then complete and final partial sextet groups become bytes. -/
def pyUrlsafeB64Decode (s : String) : Option (List Nat) :=
  decBody (rstripEq s.data)

/-- `begin_login`'s per-credential decode (line 130): pad the stored id
string to a multiple of four and decode it. -/
def decodeStoredId (s : String) : Option (List Nat) :=
  pyUrlsafeB64Decode (s ++ padFix s)

/-! ## Data model -/

/-- One enrolled authenticator, as stored by `finish_register` (lines 99-106):
the base64url-encoded, padding-stripped credential id, the opaque public key
bytes, and the signature counter. -/
structure DeviceCredential where
  id : String
  public_key : List Nat
  counter : Nat
deriving DecidableEq

/-- A `users` entry (line 49): the 16 random bytes of the user handle and the
list of enrolled device credentials. -/
structure UserRecord where
  id : List Nat
  credentials : List DeviceCredential
deriving DecidableEq

/-- The two in-memory dictionaries (lines 34-35). -/
structure ServerState where
  users : List (String × UserRecord)
  challenges : List (String × List Nat)
deriving DecidableEq

/-- The empty state the module starts from. -/
def initState : ServerState := { users := [], challenges := [] }

def RP_ID : String := "localhost"

def ORIGIN : String := "http://localhost:8000"

/-- The registration options payload built by `generate_registration_options`
with the arguments `begin_register` passes (lines 54-61). -/
structure RegistrationOptions where
  rp_name : String
  rp_id : String
  user_id : List Nat
  user_name : String
  user_display_name : String
  challenge : List Nat
  exclude_credentials : List (List Nat)
deriving DecidableEq

/-- The authentication options payload built by `generate_authentication_options`
with the arguments `begin_login` passes (lines 136-139). -/
structure AuthenticationOptions where
  rp_id : String
  challenge : List Nat
  allow_credentials : List (List Nat)
deriving DecidableEq

/-- The registration response body field `body["credential"]`: the challenge
the authenticator signed over, the origin and rp id it reports, whether its
attestation signature is valid, and the attested credential data. -/
structure RegResponse where
  challenge : List Nat
  origin : String
  rp_id : String
  sig_ok : Bool
  credential_id : List Nat
  credential_public_key : List Nat
  sign_count : Nat
deriving DecidableEq

/-- The verified registration returned by the library on success. -/
structure VerifiedRegistration where
  credential_id : List Nat
  credential_public_key : List Nat
  sign_count : Nat
deriving DecidableEq

/-- The authentication response body field `body["credential"]`: the asserted
credential id string, the signed-over challenge, reported origin and rp id,
the public key whose signature check the assertion passes, and the
authenticator's new counter value. -/
structure AuthResponse where
  id : String
  challenge : List Nat
  origin : String
  rp_id : String
  signed_by : List Nat
  new_sign_count : Nat
deriving DecidableEq

/-- The verified authentication returned by the library on success. -/
structure VerifiedAuthentication where
  new_sign_count : Nat
deriving DecidableEq

/-- The errors a handler can raise; each corresponds to one raise site in
`main.py`, plus `keyError` for the unguarded `users[email]` access on line 109
and `decodeError` for a `binascii` failure in the line-130 decode. -/
inductive ApiError where
  | noRegistrationInProgress
  | verificationError
  | keyError
  | unknownIdentityOrNoDevices
  | decodeError
  | unknownUser
  | noLoginInProgress
  | unknownCredential
deriving DecidableEq

/-- The `{"status": "registered"}` response of `finish_register` (line 114). -/
structure RegisterResult where
  status : String
deriving DecidableEq

/-- The success response of `finish_login` (lines 201-205). -/
structure LoginResult where
  status : String
  user : String
  login_time : Nat
deriving DecidableEq

/-! ## The external `webauthn` library, modelled from the spec -/

/-- Modelled from the spec: `verify_registration_response` is the external
Verifier operation `verifyRegistration` of spec section 4.3 — it succeeds with
the attested `{credential_id, public_key, initial_counter}` exactly when the
response's signed challenge, relying-party id and origin match the expected
values and the attestation signature is valid, and raises a verification
error (here `none`) otherwise. -/
def verify_registration_response (credential : RegResponse)
    (expected_challenge : List Nat) (expected_rp_id expected_origin : String) :
    Option VerifiedRegistration :=
  if credential.challenge = expected_challenge ∧ credential.rp_id = expected_rp_id
      ∧ credential.origin = expected_origin ∧ credential.sig_ok = true then
    some ⟨credential.credential_id, credential.credential_public_key, credential.sign_count⟩
  else none

/-- Modelled from the spec: `verify_authentication_response` is the external
Verifier operation `verifyAuthentication` of spec section 4.3 — it succeeds
with the authenticator's new counter exactly when challenge, rp id and origin
match, the assertion verifies under the stored public key, and the counter
does not regress (new counter strictly greater than the stored one, except
that zero/zero is tolerated for counter-less authenticators). -/
def verify_authentication_response (credential : AuthResponse)
    (expected_challenge : List Nat) (expected_rp_id expected_origin : String)
    (credential_public_key : List Nat) (credential_current_sign_count : Nat) :
    Option VerifiedAuthentication :=
  if credential.challenge = expected_challenge ∧ credential.rp_id = expected_rp_id
      ∧ credential.origin = expected_origin
      ∧ credential.signed_by = credential_public_key
      ∧ (credential_current_sign_count < credential.new_sign_count
         ∨ (credential.new_sign_count = 0 ∧ credential_current_sign_count = 0)) then
    some ⟨credential.new_sign_count⟩
  else none

/-- Modelled from the spec: `generate_registration_options` builds the options
payload from exactly the arguments the line-54 call passes plus a fresh random
challenge; the call passes no `exclude_credentials`, so the options carry the
library default, an empty exclusion list. -/
def generate_registration_options (rp_name rp_id : String) (user_id : List Nat)
    (user_name user_display_name : String) (fresh_challenge : List Nat) :
    RegistrationOptions :=
  ⟨rp_name, rp_id, user_id, user_name, user_display_name, fresh_challenge, []⟩

/-- Modelled from the spec: `generate_authentication_options` builds the
options payload from the rp id and allow-list the line-136 call passes plus a
fresh random challenge. -/
def generate_authentication_options (rp_id : String)
    (allow_credentials : List (List Nat)) (fresh_challenge : List Nat) :
    AuthenticationOptions :=
  ⟨rp_id, fresh_challenge, allow_credentials⟩

/-! ## The four route handlers -/

/-- `begin_register` (lines 44-73): create the user record on first contact
(with 16 fresh random bytes as user handle, passed as `fresh_user_id`),
generate options, store the options' challenge under the email, and return
the options. -/
def begin_register (email : String) (fresh_user_id fresh_challenge : List Nat)
    (st : ServerState) : ServerState × RegistrationOptions :=
  match lookupKey email st.users with
  | none =>
      let registration_options :=
        generate_registration_options "MyWebauthnAPP" RP_ID fresh_user_id email email
          fresh_challenge
      ({ users := insertKey email ⟨fresh_user_id, []⟩ st.users,
         challenges := insertKey email registration_options.challenge st.challenges },
       registration_options)
  | some user =>
      let registration_options :=
        generate_registration_options "MyWebauthnAPP" RP_ID user.id email email
          fresh_challenge
      ({ users := st.users,
         challenges := insertKey email registration_options.challenge st.challenges },
       registration_options)

/-- `finish_register` (lines 79-114): fetch the pending challenge (missing or
falsy empty bytes raise 400), verify the response, build the stored credential
with the padding-stripped base64url id, append it to `users[email]` (a missing
user entry would raise `KeyError`), delete the challenge, and report success.
Every raise happens before any mutation, so an error returns no new state. -/
def finish_register (email : String) (credential : RegResponse) (st : ServerState) :
    Except ApiError (ServerState × RegisterResult) :=
  match lookupKey email st.challenges with
  | none => .error .noRegistrationInProgress
  | some registration_challenge =>
      if registration_challenge = [] then .error .noRegistrationInProgress
      else
        match verify_registration_response credential registration_challenge RP_ID ORIGIN with
        | none => .error .verificationError
        | some registration_verification =>
            match lookupKey email st.users with
            | none => .error .keyError
            | some user =>
                let device_credential : DeviceCredential :=
                  ⟨storedCredentialId registration_verification.credential_id,
                   registration_verification.credential_public_key,
                   registration_verification.sign_count⟩
                .ok ({ users := insertKey email
                         ⟨user.id, user.credentials ++ [device_credential]⟩ st.users,
                       challenges := eraseKey email st.challenges },
                     ⟨"registered"⟩)

/-- The allow-list built by `begin_login`'s comprehension (lines 128-133): the
stored id of every credential, padded and decoded back to bytes; a decode
failure anywhere raises. -/
def allowCredentialIds : List DeviceCredential → Option (List (List Nat))
  | [] => some []
  | c :: rest =>
      match decodeStoredId c.id, allowCredentialIds rest with
      | some bs, some others => some (bs :: others)
      | _, _ => none

/-- `begin_login` (lines 120-145): a missing user or an empty credential list
raises 404; otherwise build the allow-list from the stored credential ids,
generate options, store the options' challenge under the email, and return
the options. -/
def begin_login (email : String) (fresh_challenge : List Nat) (st : ServerState) :
    Except ApiError (ServerState × AuthenticationOptions) :=
  match lookupKey email st.users with
  | none => .error .unknownIdentityOrNoDevices
  | some user =>
      if user.credentials = [] then .error .unknownIdentityOrNoDevices
      else
        match allowCredentialIds user.credentials with
        | none => .error .decodeError
        | some allow_credentials =>
            let authentication_options :=
              generate_authentication_options RP_ID allow_credentials fresh_challenge
            .ok ({ users := st.users,
                   challenges := insertKey email authentication_options.challenge
                     st.challenges },
                 authentication_options)

/-- The credential lookup loop of `finish_login` (lines 174-178): first
credential whose stored id string equals the asserted id string. -/
def findCredential (credential_id : String) : List DeviceCredential → Option DeviceCredential
  | [] => none
  | c :: rest => if c.id = credential_id then some c else findCredential credential_id rest

/-- The in-place counter write of line 195: the found credential object is an
alias into the list, so the first credential with the asserted id gets the new
counter. -/
def updateFirstCounter (credential_id : String) (n : Nat) :
    List DeviceCredential → List DeviceCredential
  | [] => []
  | c :: rest =>
      if c.id = credential_id then ⟨c.id, c.public_key, n⟩ :: rest
      else c :: updateFirstCounter credential_id n rest

/-- `finish_login` (lines 150-205): missing user raises 400, missing or falsy
pending challenge raises 400, unknown credential id raises 401, then the
assertion is verified against the stored public key and counter; on success
the matched credential's counter becomes the new count, the challenge is
deleted, and `{status: "ok", user, login_time}` is returned.  Every raise
happens before any mutation, so an error returns no new state. -/
def finish_login (email : String) (credential : AuthResponse) (now : Nat)
    (st : ServerState) : Except ApiError (ServerState × LoginResult) :=
  match lookupKey email st.users with
  | none => .error .unknownUser
  | some user =>
      match lookupKey email st.challenges with
      | none => .error .noLoginInProgress
      | some authentication_challenge =>
          if authentication_challenge = [] then .error .noLoginInProgress
          else
            match findCredential credential.id user.credentials with
            | none => .error .unknownCredential
            | some used_device_credential =>
                match verify_authentication_response credential authentication_challenge
                    RP_ID ORIGIN used_device_credential.public_key
                    used_device_credential.counter with
                | none => .error .verificationError
                | some verification =>
                    .ok ({ users := insertKey email
                             ⟨user.id, updateFirstCounter credential.id
                                verification.new_sign_count user.credentials⟩ st.users,
                           challenges := eraseKey email st.challenges },
                         ⟨"ok", email, now⟩)

/-! ## State projections and the reachable-state machine -/

/-- The state after a `begin_register` call. -/
def begin_register_state (email : String) (fresh_user_id fresh_challenge : List Nat)
    (st : ServerState) : ServerState :=
  (begin_register email fresh_user_id fresh_challenge st).1

/-- The state after a `finish_register` call; a raise leaves the state as it was. -/
def finish_register_state (email : String) (credential : RegResponse)
    (st : ServerState) : ServerState :=
  match finish_register email credential st with
  | .ok (st', _) => st'
  | .error _ => st

/-- The state after a `begin_login` call; a raise leaves the state as it was. -/
def begin_login_state (email : String) (fresh_challenge : List Nat)
    (st : ServerState) : ServerState :=
  match begin_login email fresh_challenge st with
  | .ok (st', _) => st'
  | .error _ => st

/-- The state after a `finish_login` call; a raise leaves the state as it was. -/
def finish_login_state (email : String) (credential : AuthResponse) (now : Nat)
    (st : ServerState) : ServerState :=
  match finish_login email credential now st with
  | .ok (st', _) => st'
  | .error _ => st

/-- One handler invocation, with arbitrary client input and RNG/clock output. -/
inductive Step : ServerState → ServerState → Prop where
  | beginReg (email : String) (fresh_user_id fresh_challenge : List Nat)
      (st : ServerState) :
      Step st (begin_register_state email fresh_user_id fresh_challenge st)
  | finishReg (email : String) (credential : RegResponse) (st : ServerState) :
      Step st (finish_register_state email credential st)
  | beginLogin (email : String) (fresh_challenge : List Nat) (st : ServerState) :
      Step st (begin_login_state email fresh_challenge st)
  | finishLogin (email : String) (credential : AuthResponse) (now : Nat)
      (st : ServerState) :
      Step st (finish_login_state email credential now st)

/-- States reachable from the empty start state by handler invocations. -/
inductive Reachable : ServerState → Prop where
  | init : Reachable initState
  | step {st st' : ServerState} : Reachable st → Step st st' → Reachable st'

/-- Handler invocations restricted to fresh registrations: a `finish_register`
step may only verify a credential whose stored id is not already in the
identity's list (an authenticator outside the identity's enrolled set). -/
inductive FreshStep : ServerState → ServerState → Prop where
  | beginReg (email : String) (fresh_user_id fresh_challenge : List Nat)
      (st : ServerState) :
      FreshStep st (begin_register_state email fresh_user_id fresh_challenge st)
  | finishReg (email : String) (credential : RegResponse) (st : ServerState)
      (hfresh : ∀ u, lookupKey email st.users = some u →
        storedCredentialId credential.credential_id ∉
          List.map DeviceCredential.id u.credentials) :
      FreshStep st (finish_register_state email credential st)
  | beginLogin (email : String) (fresh_challenge : List Nat) (st : ServerState) :
      FreshStep st (begin_login_state email fresh_challenge st)
  | finishLogin (email : String) (credential : AuthResponse) (now : Nat)
      (st : ServerState) :
      FreshStep st (finish_login_state email credential now st)

/-- States reachable from the empty start state by fresh-registration steps. -/
inductive FreshReachable : ServerState → Prop where
  | init : FreshReachable initState
  | step {st st' : ServerState} : FreshReachable st → FreshStep st st' → FreshReachable st'

/-- Per-identity uniqueness of stored credential ids, the claimed invariant. -/
def credsUnique (st : ServerState) : Prop :=
  ∀ email u, lookupKey email st.users = some u →
    (List.map DeviceCredential.id u.credentials).Nodup

/-! ## Concrete example data used by counterexamples and witnesses -/

/-- A concrete 16-byte user handle. -/
def exUid : List Nat := List.replicate 16 1

/-- A concrete 16-byte challenge. -/
def exCh1 : List Nat := List.replicate 16 2

/-- A second concrete 16-byte challenge. -/
def exCh2 : List Nat := List.replicate 16 3

/-- A third concrete 16-byte challenge. -/
def exCh3 : List Nat := List.replicate 16 4

/-- A registration response that passes verification against challenge `ch`
and attests credential id `cid`. -/
def exRegResponse (ch cid : List Nat) : RegResponse :=
  ⟨ch, ORIGIN, RP_ID, true, cid, [9], 0⟩

/-- A registration response whose attestation signature is invalid. -/
def exBadRegResponse (ch : List Nat) : RegResponse :=
  ⟨ch, ORIGIN, RP_ID, false, [0], [9], 0⟩

/-- State after `begin_register` for `"a"`. -/
def exSt1 : ServerState := begin_register_state "a" exUid exCh1 initState

/-- State after a successful registration of credential id `[0]` for `"a"`. -/
def exSt2 : ServerState := finish_register_state "a" (exRegResponse exCh1 [0]) exSt1

/-- State after a second `begin_register` for `"a"` (pending registration
challenge `exCh2`). -/
def exSt3 : ServerState := begin_register_state "a" exUid exCh2 exSt2

/-- State after a second successful registration of the same credential id
`[0]` for `"a"`. -/
def exSt4 : ServerState := finish_register_state "a" (exRegResponse exCh2 [0]) exSt3

/-- State after a `begin_login` for `"a"` issued while the registration
challenge `exCh2` of `exSt3` is still pending. -/
def exSt5 : ServerState := begin_login_state "a" exCh3 exSt3

/-! ## Association-list lemmas -/

theorem lookupKey_insertKey {α : Type} (j k : String) (v : α) (m : List (String × α)) :
    lookupKey j (insertKey k v m) = if k = j then some v else lookupKey j m := by
  induction m with
  | nil => simp [insertKey, lookupKey]
  | cons p rest ih =>
      obtain ⟨k', v'⟩ := p
      by_cases hk : k' = k
      · subst hk
        by_cases hj : k' = j <;> simp [insertKey, lookupKey, hj]
      · by_cases hj : k' = j
        · subst hj
          have hkj : ¬k = k' := fun h => hk h.symm
          simp [insertKey, lookupKey, hk, hkj]
        · simp [insertKey, lookupKey, hk, hj, ih]

theorem lookupKey_eraseKey {α : Type} (j k : String) (m : List (String × α)) :
    lookupKey j (eraseKey k m) = if k = j then none else lookupKey j m := by
  induction m with
  | nil => simp [eraseKey, lookupKey]
  | cons p rest ih =>
      obtain ⟨k', v'⟩ := p
      by_cases hk : k' = k
      · subst hk
        by_cases hj : k' = j
        · subst hj
          simp [eraseKey, lookupKey, ih]
        · simp [eraseKey, lookupKey, hj, ih]
      · by_cases hj : k' = j
        · subst hj
          simp [eraseKey, lookupKey, hk, Ne.symm hk]
        · simp [eraseKey, lookupKey, hk, hj, ih]

theorem lookupKey_insertKey_self {α : Type} (k : String) (v : α) (m : List (String × α)) :
    lookupKey k (insertKey k v m) = some v := by
  simp [lookupKey_insertKey]

theorem lookupKey_eraseKey_self {α : Type} (k : String) (m : List (String × α)) :
    lookupKey k (eraseKey k m) = none := by
  simp [lookupKey_eraseKey]

/-! ## Base64url lemmas -/

theorem charSextet_sextetChar : ∀ n, n < 64 → charSextet (sextetChar n) = some n := by
  decide

theorem sextetChar_ne_pad : ∀ n, sextetChar n ≠ '=' := by
  intro n
  by_cases h : n < 64
  · revert n h
    decide
  · have hlen : b64Chars.length ≤ n := by
      have : b64Chars.length = 64 := by decide
      omega
    simp [sextetChar, List.getD, List.getElem?_eq_none hlen]

theorem rstripEq_cons_ne {c : Char} (l : List Char) (hc : c ≠ '=') :
    rstripEq (c :: l) = c :: rstripEq l := by
  cases h : rstripEq l <;> simp [rstripEq, h, hc]

theorem rstripEq_replicate_pad (k : Nat) : rstripEq (List.replicate k '=') = [] := by
  induction k with
  | zero => rfl
  | succ n ih => simp [List.replicate, rstripEq, ih]

theorem rstripEq_append_replicate (l : List Char) (k : Nat) :
    rstripEq (l ++ List.replicate k '=') = rstripEq l := by
  induction l with
  | nil => simp [rstripEq_replicate_pad, rstripEq]
  | cons c rest ih => simp [rstripEq, ih]

theorem rstripEq_no_pad (l : List Char) (h : ∀ c ∈ l, c ≠ '=') : rstripEq l = l := by
  induction l with
  | nil => rfl
  | cons c rest ih =>
      rw [rstripEq_cons_ne rest (h c (by simp)), ih]
      intro x hx
      exact h x (by simp [hx])

theorem rstripEq_encBytes (bs : List Nat) : rstripEq (encBytes bs) = encNoPad bs := by
  induction bs using encBytes.induct with
  | case1 => rfl
  | case2 a =>
      rw [encBytes, encNoPad,
        rstripEq_cons_ne _ (sextetChar_ne_pad _),
        rstripEq_cons_ne _ (sextetChar_ne_pad _)]
      rfl
  | case3 a b =>
      rw [encBytes, encNoPad,
        rstripEq_cons_ne _ (sextetChar_ne_pad _),
        rstripEq_cons_ne _ (sextetChar_ne_pad _),
        rstripEq_cons_ne _ (sextetChar_ne_pad _)]
      rfl
  | case4 a b c rest ih =>
      rw [encBytes, encNoPad,
        rstripEq_cons_ne _ (sextetChar_ne_pad _),
        rstripEq_cons_ne _ (sextetChar_ne_pad _),
        rstripEq_cons_ne _ (sextetChar_ne_pad _),
        rstripEq_cons_ne _ (sextetChar_ne_pad _), ih]

theorem encNoPad_ne_pad (bs : List Nat) : ∀ c ∈ encNoPad bs, c ≠ '=' := by
  induction bs using encNoPad.induct with
  | case1 => simp [encNoPad]
  | case2 a =>
      simp only [encNoPad, List.mem_cons, List.not_mem_nil, or_false]
      rintro c (rfl | rfl) <;> exact sextetChar_ne_pad _
  | case3 a b =>
      simp only [encNoPad, List.mem_cons, List.not_mem_nil, or_false]
      rintro c (rfl | rfl | rfl) <;> exact sextetChar_ne_pad _
  | case4 a b c rest ih =>
      simp only [encNoPad, List.mem_cons]
      rintro x (rfl | rfl | rfl | rfl | hx)
      · exact sextetChar_ne_pad _
      · exact sextetChar_ne_pad _
      · exact sextetChar_ne_pad _
      · exact sextetChar_ne_pad _
      · exact ih x hx

theorem decBody_encNoPad : ∀ bs : List Nat, (∀ x ∈ bs, x < 256) →
    decBody (encNoPad bs) = some bs := by
  intro bs
  induction bs using encNoPad.induct with
  | case1 => intro _; rfl
  | case2 a =>
      intro h
      have ha : a < 256 := h a (by simp)
      rw [encNoPad]
      rw [show decBody [sextetChar (a / 4), sextetChar (a % 4 * 16)] =
          match charSextet (sextetChar (a / 4)), charSextet (sextetChar (a % 4 * 16)) with
          | some w, some x => some [w * 4 + x / 16]
          | _, _ => none from rfl]
      rw [charSextet_sextetChar _ (by omega), charSextet_sextetChar _ (by omega)]
      simp only [Option.some.injEq, List.cons.injEq, and_true]
      omega
  | case3 a b =>
      intro h
      have ha : a < 256 := h a (by simp)
      have hb : b < 256 := h b (by simp)
      rw [encNoPad]
      rw [show decBody [sextetChar (a / 4), sextetChar (a % 4 * 16 + b / 16),
            sextetChar (b % 16 * 4)] =
          match charSextet (sextetChar (a / 4)),
              charSextet (sextetChar (a % 4 * 16 + b / 16)),
              charSextet (sextetChar (b % 16 * 4)) with
          | some w, some x, some y => some [w * 4 + x / 16, x % 16 * 16 + y / 4]
          | _, _, _ => none from rfl]
      rw [charSextet_sextetChar _ (by omega), charSextet_sextetChar _ (by omega),
        charSextet_sextetChar _ (by omega)]
      simp only [Option.some.injEq, List.cons.injEq, and_true]
      omega
  | case4 a b c rest ih =>
      intro h
      have ha : a < 256 := h a (by simp)
      have hb : b < 256 := h b (by simp)
      have hc : c < 256 := h c (by simp)
      have hrest : ∀ x ∈ rest, x < 256 := by
        intro x hx
        exact h x (by simp [hx])
      rw [encNoPad, decBody]
      rw [charSextet_sextetChar _ (by omega), charSextet_sextetChar _ (by omega),
        charSextet_sextetChar _ (by omega), charSextet_sextetChar _ (by omega),
        ih hrest]
      simp only [Option.some.injEq, List.cons.injEq, and_true]
      omega

theorem decodeStoredId_storedCredentialId (bs : List Nat) (h : ∀ x ∈ bs, x < 256) :
    decodeStoredId (storedCredentialId bs) = some bs := by
  have hmk : storedCredentialId bs = String.mk (encNoPad bs) := by
    simp [storedCredentialId, rstripEq_encBytes]
  rw [hmk]
  show decBody (rstripEq ((String.mk (encNoPad bs) ++
      padFix (String.mk (encNoPad bs))).data)) = some bs
  have hdata : (String.mk (encNoPad bs) ++ padFix (String.mk (encNoPad bs))).data
      = encNoPad bs ++ List.replicate (4 - (encNoPad bs).length % 4) '=' := rfl
  rw [hdata, rstripEq_append_replicate, rstripEq_no_pad _ (encNoPad_ne_pad bs),
    decBody_encNoPad bs h]

/-! ## Characterization of each handler's effect on the state -/

theorem begin_register_state_char (email : String) (fresh_user_id fresh_challenge : List Nat)
    (st : ServerState) :
    (lookupKey email st.users = none ∧
      begin_register_state email fresh_user_id fresh_challenge st =
        { users := insertKey email ⟨fresh_user_id, []⟩ st.users,
          challenges := insertKey email fresh_challenge st.challenges }) ∨
    (∃ u, lookupKey email st.users = some u ∧
      begin_register_state email fresh_user_id fresh_challenge st =
        { users := st.users,
          challenges := insertKey email fresh_challenge st.challenges }) := by
  cases hu : lookupKey email st.users with
  | none =>
      left
      refine ⟨rfl, ?_⟩
      simp [begin_register_state, begin_register, generate_registration_options, hu]
  | some u =>
      right
      refine ⟨u, rfl, ?_⟩
      simp [begin_register_state, begin_register, generate_registration_options, hu]

theorem finish_register_state_char (email : String) (credential : RegResponse)
    (st : ServerState) :
    finish_register_state email credential st = st ∨
    ∃ u, lookupKey email st.users = some u ∧
      finish_register_state email credential st =
        { users := insertKey email
            ⟨u.id, u.credentials ++
              [⟨storedCredentialId credential.credential_id,
                credential.credential_public_key, credential.sign_count⟩]⟩ st.users,
          challenges := eraseKey email st.challenges } := by
  cases hch : lookupKey email st.challenges with
  | none =>
      left
      simp [finish_register_state, finish_register, hch]
  | some ch =>
      by_cases hemp : ch = []
      · left
        simp [finish_register_state, finish_register, hch, hemp]
      · by_cases hcond : credential.challenge = ch ∧ credential.rp_id = RP_ID
            ∧ credential.origin = ORIGIN ∧ credential.sig_ok = true
        · cases hu : lookupKey email st.users with
          | none =>
              left
              simp [finish_register_state, finish_register, verify_registration_response,
                hch, hemp, hcond, hu]
          | some u =>
              right
              refine ⟨u, rfl, ?_⟩
              simp [finish_register_state, finish_register, verify_registration_response,
                hch, hemp, hcond, hu]
        · left
          simp [finish_register_state, finish_register, verify_registration_response,
            hch, hemp, hcond]

theorem begin_login_state_char (email : String) (fresh_challenge : List Nat)
    (st : ServerState) :
    begin_login_state email fresh_challenge st = st ∨
    (lookupKey email st.users ≠ none ∧
      begin_login_state email fresh_challenge st =
        { users := st.users,
          challenges := insertKey email fresh_challenge st.challenges }) := by
  cases hu : lookupKey email st.users with
  | none =>
      left
      simp [begin_login_state, begin_login, hu]
  | some u =>
      by_cases hemp : u.credentials = []
      · left
        simp [begin_login_state, begin_login, hu, hemp]
      · cases hids : allowCredentialIds u.credentials with
        | none =>
            left
            simp [begin_login_state, begin_login, hu, hemp, hids]
        | some ids =>
            right
            refine ⟨by simp [hu], ?_⟩
            simp [begin_login_state, begin_login, generate_authentication_options,
              hu, hemp, hids]

theorem finish_login_state_char (email : String) (credential : AuthResponse) (now : Nat)
    (st : ServerState) :
    finish_login_state email credential now st = st ∨
    ∃ u, lookupKey email st.users = some u ∧
      finish_login_state email credential now st =
        { users := insertKey email
            ⟨u.id, updateFirstCounter credential.id credential.new_sign_count
              u.credentials⟩ st.users,
          challenges := eraseKey email st.challenges } := by
  cases hu : lookupKey email st.users with
  | none =>
      left
      simp [finish_login_state, finish_login, hu]
  | some u =>
      cases hch : lookupKey email st.challenges with
      | none =>
          left
          simp [finish_login_state, finish_login, hu, hch]
      | some ch =>
          by_cases hemp : ch = []
          · left
            simp [finish_login_state, finish_login, hu, hch, hemp]
          · cases hcred : findCredential credential.id u.credentials with
            | none =>
                left
                simp [finish_login_state, finish_login, hu, hch, hemp, hcred]
            | some c =>
                by_cases hcond : credential.challenge = ch ∧ credential.rp_id = RP_ID
                    ∧ credential.origin = ORIGIN ∧ credential.signed_by = c.public_key
                    ∧ (c.counter < credential.new_sign_count
                       ∨ (credential.new_sign_count = 0 ∧ c.counter = 0))
                · right
                  refine ⟨u, rfl, ?_⟩
                  simp [finish_login_state, finish_login, verify_authentication_response,
                    hu, hch, hemp, hcred, hcond]
                · left
                  simp [finish_login_state, finish_login, verify_authentication_response,
                    hu, hch, hemp, hcred, hcond]

/-! ## Invariant lemmas over the state machine -/

theorem updateFirstCounter_map_id (credential_id : String) (n : Nat)
    (l : List DeviceCredential) :
    List.map DeviceCredential.id (updateFirstCounter credential_id n l) =
      List.map DeviceCredential.id l := by
  induction l with
  | nil => rfl
  | cons c rest ih =>
      by_cases h : c.id = credential_id <;> simp [updateFirstCounter, h, ih]

theorem findCredential_updateFirstCounter (credential_id : String) (n : Nat)
    (l : List DeviceCredential) :
    findCredential credential_id (updateFirstCounter credential_id n l) =
      (findCredential credential_id l).map (fun c => ⟨c.id, c.public_key, n⟩) := by
  induction l with
  | nil => rfl
  | cons c rest ih =>
      by_cases h : c.id = credential_id
      · simp [updateFirstCounter, findCredential, h]
      · simp [updateFirstCounter, findCredential, h, ih]

theorem step_users_id_mono {st st' : ServerState} (h : Step st st') :
    ∀ email u, lookupKey email st.users = some u →
      ∃ u', lookupKey email st'.users = some u' ∧ u'.id = u.id := by
  intro email u hu
  cases h with
  | beginReg e fresh_user_id fresh_challenge s =>
      rcases begin_register_state_char e fresh_user_id fresh_challenge st with
        ⟨hnone, heq⟩ | ⟨w, hw, heq⟩
      · rw [heq]
        by_cases he : e = email
        · subst he
          simp [hnone] at hu
        · refine ⟨u, ?_, rfl⟩
          simp only [lookupKey_insertKey, he, if_false]
          exact hu
      · rw [heq]
        exact ⟨u, hu, rfl⟩
  | finishReg e credential s =>
      rcases finish_register_state_char e credential st with heq | ⟨w, hw, heq⟩
      · rw [heq]
        exact ⟨u, hu, rfl⟩
      · rw [heq]
        by_cases he : e = email
        · subst he
          rw [hw] at hu
          injection hu with hwu
          subst hwu
          refine ⟨⟨w.id, w.credentials ++
            [⟨storedCredentialId credential.credential_id,
              credential.credential_public_key, credential.sign_count⟩]⟩, ?_, rfl⟩
          simp [lookupKey_insertKey]
        · refine ⟨u, ?_, rfl⟩
          simp only [lookupKey_insertKey, he, if_false]
          exact hu
  | beginLogin e fresh_challenge s =>
      rcases begin_login_state_char e fresh_challenge st with heq | ⟨hne, heq⟩ <;> rw [heq]
      · exact ⟨u, hu, rfl⟩
      · exact ⟨u, hu, rfl⟩
  | finishLogin e credential now s =>
      rcases finish_login_state_char e credential now st with heq | ⟨w, hw, heq⟩
      · rw [heq]
        exact ⟨u, hu, rfl⟩
      · rw [heq]
        by_cases he : e = email
        · subst he
          rw [hw] at hu
          injection hu with hwu
          subst hwu
          refine ⟨⟨w.id, updateFirstCounter credential.id credential.new_sign_count
            w.credentials⟩, ?_, rfl⟩
          simp [lookupKey_insertKey]
        · refine ⟨u, ?_, rfl⟩
          simp only [lookupKey_insertKey, he, if_false]
          exact hu

theorem step_users_ne_none {st st' : ServerState} (h : Step st st') (email : String)
    (hne : lookupKey email st.users ≠ none) : lookupKey email st'.users ≠ none := by
  cases hc : lookupKey email st.users with
  | none => exact absurd hc hne
  | some u =>
      obtain ⟨u', hu', _⟩ := step_users_id_mono h email u hc
      simp [hu']

theorem reachable_challenge_dom {st : ServerState} (h : Reachable st) :
    ∀ email, lookupKey email st.challenges ≠ none → lookupKey email st.users ≠ none := by
  induction h with
  | init =>
      intro email hch
      simp [initState, lookupKey] at hch
  | @step st st' hr hs ih =>
      intro email hch
      cases hs with
      | beginReg e fresh_user_id fresh_challenge s =>
          rcases begin_register_state_char e fresh_user_id fresh_challenge st with
            ⟨hnone, heq⟩ | ⟨w, hw, heq⟩
          · rw [heq] at hch ⊢
            by_cases he : e = email
            · subst he
              simp [lookupKey_insertKey]
            · simp only [lookupKey_insertKey, he, if_false] at hch ⊢
              exact ih email hch
          · rw [heq] at hch ⊢
            by_cases he : e = email
            · subst he
              simp [hw]
            · simp only [lookupKey_insertKey, he, if_false] at hch
              exact ih email hch
      | finishReg e credential s =>
          rcases finish_register_state_char e credential st with heq | ⟨w, hw, heq⟩
          · rw [heq] at hch ⊢
            exact ih email hch
          · rw [heq] at hch ⊢
            by_cases he : e = email
            · subst he
              simp [lookupKey_insertKey]
            · simp only [lookupKey_eraseKey, he, if_false] at hch
              simp only [lookupKey_insertKey, he, if_false]
              exact ih email hch
      | beginLogin e fresh_challenge s =>
          rcases begin_login_state_char e fresh_challenge st with heq | ⟨hne, heq⟩
          · rw [heq] at hch ⊢
            exact ih email hch
          · rw [heq] at hch ⊢
            by_cases he : e = email
            · subst he
              exact hne
            · simp only [lookupKey_insertKey, he, if_false] at hch
              exact ih email hch
      | finishLogin e credential now s =>
          rcases finish_login_state_char e credential now st with heq | ⟨w, hw, heq⟩
          · rw [heq] at hch ⊢
            exact ih email hch
          · rw [heq] at hch ⊢
            by_cases he : e = email
            · subst he
              simp [lookupKey_insertKey]
            · simp only [lookupKey_eraseKey, he, if_false] at hch
              simp only [lookupKey_insertKey, he, if_false]
              exact ih email hch

theorem freshStep_credsUnique {st st' : ServerState} (hs : FreshStep st st')
    (ih : credsUnique st) : credsUnique st' := by
  cases hs with
  | beginReg e fresh_user_id fresh_challenge s =>
      rcases begin_register_state_char e fresh_user_id fresh_challenge st with
        ⟨hnone, heq⟩ | ⟨w, hw, heq⟩ <;> rw [heq]
      · intro email u hu
        simp only [lookupKey_insertKey] at hu
        by_cases he : e = email
        · rw [if_pos he] at hu
          injection hu with hwu
          subst hwu
          simp
        · rw [if_neg he] at hu
          exact ih email u hu
      · intro email u hu
        exact ih email u hu
  | finishReg e credential s hfresh =>
      rcases finish_register_state_char e credential st with heq | ⟨w, hw, heq⟩ <;> rw [heq]
      · exact ih
      · intro email u hu
        simp only [lookupKey_insertKey] at hu
        by_cases he : e = email
        · rw [if_pos he] at hu
          injection hu with hwu
          subst hwu
          simp only [List.map_append, List.map_cons, List.map_nil]
          rw [List.nodup_append]
          refine ⟨ih e w hw, List.nodup_singleton _, ?_⟩
          intro x hx hmem
          simp only [List.mem_singleton] at hmem
          subst hmem
          exact hfresh w hw hx
        · rw [if_neg he] at hu
          exact ih email u hu
  | beginLogin e fresh_challenge s =>
      rcases begin_login_state_char e fresh_challenge st with heq | ⟨hne, heq⟩ <;> rw [heq]
      · exact ih
      · intro email u hu
        exact ih email u hu
  | finishLogin e credential now s =>
      rcases finish_login_state_char e credential now st with heq | ⟨w, hw, heq⟩ <;> rw [heq]
      · exact ih
      · intro email u hu
        simp only [lookupKey_insertKey] at hu
        by_cases he : e = email
        · rw [if_pos he] at hu
          injection hu with hwu
          subst hwu
          simp only [updateFirstCounter_map_id]
          exact ih e w hw
        · rw [if_neg he] at hu
          exact ih email u hu

/-! ## Elimination lemmas for handler results -/

theorem finish_register_ok_elim (email : String) (credential : RegResponse)
    (st st' : ServerState) (r : RegisterResult)
    (h : finish_register email credential st = .ok (st', r)) :
    st'.challenges = eraseKey email st.challenges := by
  cases hch : lookupKey email st.challenges with
  | none => simp [finish_register, hch] at h
  | some ch =>
      by_cases hemp : ch = []
      · simp [finish_register, hch, hemp] at h
      · cases hv : verify_registration_response credential ch RP_ID ORIGIN with
        | none => simp [finish_register, hch, hemp, hv] at h
        | some v =>
            cases hu : lookupKey email st.users with
            | none => simp [finish_register, hch, hemp, hv, hu] at h
            | some u =>
                simp only [finish_register, hch, hemp, hv, hu, if_false,
                  Except.ok.injEq, Prod.mk.injEq] at h
                obtain ⟨h1, h2⟩ := h
                subst h1
                rfl

theorem finish_login_ok_elim (email : String) (credential : AuthResponse) (now : Nat)
    (st st' : ServerState) (r : LoginResult)
    (h : finish_login email credential now st = .ok (st', r)) :
    st'.challenges = eraseKey email st.challenges := by
  cases hu : lookupKey email st.users with
  | none => simp [finish_login, hu] at h
  | some u =>
      cases hch : lookupKey email st.challenges with
      | none => simp [finish_login, hu, hch] at h
      | some ch =>
          by_cases hemp : ch = []
          · simp [finish_login, hu, hch, hemp] at h
          · cases hcred : findCredential credential.id u.credentials with
            | none => simp [finish_login, hu, hch, hemp, hcred] at h
            | some c =>
                cases hv : verify_authentication_response credential ch RP_ID ORIGIN
                    c.public_key c.counter with
                | none => simp [finish_login, hu, hch, hemp, hcred, hv] at h
                | some v =>
                    simp only [finish_login, hu, hch, hemp, hcred, hv, if_false,
                      Except.ok.injEq, Prod.mk.injEq] at h
                    obtain ⟨h1, h2⟩ := h
                    subst h1
                    rfl

theorem finish_register_error_elim (email : String) (credential : RegResponse)
    (st : ServerState) (e : ApiError)
    (h : finish_register email credential st = .error e) :
    finish_register_state email credential st = st := by
  simp [finish_register_state, h]

theorem finish_login_error_elim (email : String) (credential : AuthResponse) (now : Nat)
    (st : ServerState) (e : ApiError)
    (h : finish_login email credential now st = .error e) :
    finish_login_state email credential now st = st := by
  simp [finish_login_state, h]

theorem begin_login_ok_elim (email : String) (fresh_challenge : List Nat)
    (st st' : ServerState) (opts : AuthenticationOptions)
    (h : begin_login email fresh_challenge st = .ok (st', opts)) :
    st'.challenges = insertKey email fresh_challenge st.challenges ∧
    st'.users = st.users := by
  cases hu : lookupKey email st.users with
  | none => simp [begin_login, hu] at h
  | some u =>
      by_cases hemp : u.credentials = []
      · simp [begin_login, hu, hemp] at h
      · cases hids : allowCredentialIds u.credentials with
        | none => simp [begin_login, hu, hemp, hids] at h
        | some ids =>
            simp only [begin_login, hu, hemp, hids, if_false,
              generate_authentication_options, Except.ok.injEq, Prod.mk.injEq,
              ] at h
            obtain ⟨h1, h2⟩ := h
            subst h1
            exact ⟨rfl, rfl⟩

theorem finish_register_keyError_elim (email : String) (credential : RegResponse)
    (st : ServerState)
    (h : finish_register email credential st = .error .keyError) :
    lookupKey email st.challenges ≠ none ∧ lookupKey email st.users = none := by
  cases hch : lookupKey email st.challenges with
  | none => simp [finish_register, hch] at h
  | some ch =>
      by_cases hemp : ch = []
      · simp [finish_register, hch, hemp] at h
      · cases hv : verify_registration_response credential ch RP_ID ORIGIN with
        | none => simp [finish_register, hch, hemp, hv] at h
        | some v =>
            cases hu : lookupKey email st.users with
            | none => exact ⟨by simp, rfl⟩
            | some u => simp [finish_register, hch, hemp, hv, hu] at h

/-! ## Claim C1 -/

/-- C1 counterexample: after `begin_register` for `"a"`, a `finish_register`
whose verification fails raises `verificationError` and leaves the identity's
pending challenge in the store, refuting the claim that every Finish attempt
removes the pending challenge regardless of outcome. -/
theorem C1_counterexample :
    finish_register "a" (exBadRegResponse exCh1) exSt1 =
      .error .verificationError ∧
    lookupKey "a" (finish_register_state "a" (exBadRegResponse exCh1) exSt1).challenges =
      some exCh1 := by
  exact ⟨by rfl, by rfl⟩

/-- C1 (amended): a Finish attempt consumes the pending challenge exactly when
verification succeeds: a successful `finish_register` or `finish_login` leaves
no pending challenge for the identity, while a failing attempt (any raised
error, including verification failure and unknown credential) leaves the
whole state, and hence the pending challenge, unchanged. -/
theorem C1_challenge_consumed_only_on_success :
    (∀ email credential st st' r,
      finish_register email credential st = .ok (st', r) →
      lookupKey email st'.challenges = none) ∧
    (∀ email credential now st st' r,
      finish_login email credential now st = .ok (st', r) →
      lookupKey email st'.challenges = none) ∧
    (∀ email credential st e,
      finish_register email credential st = .error e →
      finish_register_state email credential st = st) ∧
    (∀ email credential now st e,
      finish_login email credential now st = .error e →
      finish_login_state email credential now st = st) := by
  refine ⟨?_, ?_, ?_, ?_⟩
  · intro email credential st st' r h
    rw [finish_register_ok_elim email credential st st' r h, lookupKey_eraseKey_self]
  · intro email credential now st st' r h
    rw [finish_login_ok_elim email credential now st st' r h, lookupKey_eraseKey_self]
  · intro email credential st e h
    exact finish_register_error_elim email credential st e h
  · intro email credential now st e h
    exact finish_login_error_elim email credential now st e h

/-- C1 witness: the amended theorem applied to the concrete successful
registration of the example trace and to its failing counterpart. -/
theorem C1_witness :
    lookupKey "a" exSt2.challenges = none ∧
    finish_register_state "a" (exBadRegResponse exCh1) exSt1 = exSt1 := by
  constructor
  · exact C1_challenge_consumed_only_on_success.1 "a" (exRegResponse exCh1 [0]) exSt1
      exSt2 ⟨"registered"⟩ (by rfl)
  · exact C1_challenge_consumed_only_on_success.2.2.1 "a" (exBadRegResponse exCh1) exSt1
      ApiError.verificationError (by rfl)

/-! ## Claim C2 -/

/-- C2: a `finish_login` whose asserted new counter is at most the matched
credential's stored counter (and not the zero/zero exception) fails with
`verificationError`, and the state — in particular the stored counter — is
unchanged by the failed call. -/
theorem C2_counter_regression_rejected (email : String) (credential : AuthResponse)
    (now : Nat) (st : ServerState) (u : UserRecord) (c : DeviceCredential) (ch : List Nat)
    (hu : lookupKey email st.users = some u)
    (hch : lookupKey email st.challenges = some ch) (hne : ch ≠ [])
    (hc : findCredential credential.id u.credentials = some c)
    (hle : credential.new_sign_count ≤ c.counter)
    (hnz : ¬(credential.new_sign_count = 0 ∧ c.counter = 0)) :
    finish_login email credential now st = .error .verificationError ∧
    finish_login_state email credential now st = st := by
  have hver : verify_authentication_response credential ch RP_ID ORIGIN
      c.public_key c.counter = none := by
    unfold verify_authentication_response
    rw [if_neg]
    rintro ⟨-, -, -, -, hcnt⟩
    rcases hcnt with hlt | ⟨h0, h0'⟩
    · omega
    · exact hnz ⟨h0, h0'⟩
  constructor
  · simp [finish_login, hu, hch, hne, hc, hver]
  · simp [finish_login_state, finish_login, hu, hch, hne, hc, hver]

/-- C2 witness: the theorem applied to a concrete state holding one credential
with counter 5 and an assertion re-using counter 5. -/
theorem C2_witness :
    finish_login "a" (⟨"AA", exCh1, ORIGIN, RP_ID, [9], 5⟩ : AuthResponse) 0
        (⟨[("a", ⟨exUid, [⟨"AA", [9], 5⟩]⟩)], [("a", exCh1)]⟩ : ServerState) =
      .error .verificationError ∧
    finish_login_state "a" (⟨"AA", exCh1, ORIGIN, RP_ID, [9], 5⟩ : AuthResponse) 0
        (⟨[("a", ⟨exUid, [⟨"AA", [9], 5⟩]⟩)], [("a", exCh1)]⟩ : ServerState) =
      ⟨[("a", ⟨exUid, [⟨"AA", [9], 5⟩]⟩)], [("a", exCh1)]⟩ :=
  C2_counter_regression_rejected "a" ⟨"AA", exCh1, ORIGIN, RP_ID, [9], 5⟩ 0
    ⟨[("a", ⟨exUid, [⟨"AA", [9], 5⟩]⟩)], [("a", exCh1)]⟩
    ⟨exUid, [⟨"AA", [9], 5⟩]⟩ ⟨"AA", [9], 5⟩ exCh1
    (by rfl) (by rfl) (by decide) (by rfl) (by decide) (by decide)

/-! ## Claim C3 -/

/-- C3: after a `begin_register`, a `finish_register` whose response validly
signs the issued (non-empty) challenge for the configured rp id and origin
succeeds with status "registered" exactly once: any second `finish_register`
for the identity, with any response, fails with `noRegistrationInProgress`,
because the first success consumed the challenge. -/
theorem C3_register_succeeds_exactly_once (email : String)
    (fresh_user_id fresh_challenge : List Nat) (st : ServerState)
    (credential : RegResponse)
    (hne : fresh_challenge ≠ [])
    (hch : credential.challenge = fresh_challenge)
    (hrp : credential.rp_id = RP_ID) (ho : credential.origin = ORIGIN)
    (hsig : credential.sig_ok = true) :
    ∃ st' : ServerState,
      finish_register email credential
          (begin_register_state email fresh_user_id fresh_challenge st) =
        .ok (st', ⟨"registered"⟩) ∧
      ∀ credential2 : RegResponse,
        finish_register email credential2 st' = .error .noRegistrationInProgress := by
  rcases begin_register_state_char email fresh_user_id fresh_challenge st with
    ⟨hnone, heq⟩ | ⟨u, hu, heq⟩ <;> rw [heq]
  · refine ⟨{ users := insertKey email ⟨fresh_user_id,
                [⟨storedCredentialId credential.credential_id,
                  credential.credential_public_key, credential.sign_count⟩]⟩
                (insertKey email ⟨fresh_user_id, []⟩ st.users),
              challenges := eraseKey email
                (insertKey email fresh_challenge st.challenges) }, ?_, ?_⟩
    · simp [finish_register, lookupKey_insertKey_self, hne, verify_registration_response,
        hch, hrp, ho, hsig]
    · intro credential2
      simp [finish_register, lookupKey_eraseKey_self]
  · refine ⟨{ users := insertKey email ⟨u.id, u.credentials ++
                [⟨storedCredentialId credential.credential_id,
                  credential.credential_public_key, credential.sign_count⟩]⟩ st.users,
              challenges := eraseKey email
                (insertKey email fresh_challenge st.challenges) }, ?_, ?_⟩
    · simp [finish_register, lookupKey_insertKey_self, hne, verify_registration_response,
        hch, hrp, ho, hsig, hu]
    · intro credential2
      simp [finish_register, lookupKey_eraseKey_self]

/-- C3 witness: the theorem applied to the concrete first registration of the
example trace. -/
theorem C3_witness :
    ∃ st' : ServerState,
      finish_register "a" (exRegResponse exCh1 [0])
          (begin_register_state "a" exUid exCh1 initState) =
        .ok (st', ⟨"registered"⟩) ∧
      ∀ credential2 : RegResponse,
        finish_register "a" credential2 st' = .error .noRegistrationInProgress :=
  C3_register_succeeds_exactly_once "a" exUid exCh1 initState (exRegResponse exCh1 [0])
    (by decide) rfl rfl rfl rfl

/-! ## Claim C4 -/

/-- C4 counterexample: in `exSt3` the identity `"a"` has the pending
registration challenge `exCh2`; the subsequent `begin_login` of `exSt5`
stores its authentication challenge in the same single `challenges[email]`
slot, so the pending registration challenge is overwritten, not left
intact. -/
theorem C4_counterexample :
    lookupKey "a" exSt3.challenges = some exCh2 ∧
    lookupKey "a" exSt5.challenges = some exCh3 ∧
    lookupKey "a" exSt5.challenges ≠ some exCh2 := by
  refine ⟨by rfl, by rfl, by decide⟩

/-- C4 (amended): the server keeps a single challenge slot per identity,
shared by both ceremony types: `begin_register` stores its fresh challenge as
the identity's only pending challenge, and a successful `begin_login` does
the same, each overwriting whatever pending challenge of either ceremony was
there; challenges of other identities are untouched. -/
theorem C4_single_shared_challenge_slot :
    (∀ email fresh_user_id fresh_challenge st,
      lookupKey email
          (begin_register_state email fresh_user_id fresh_challenge st).challenges =
        some fresh_challenge ∧
      ∀ email2, email2 ≠ email →
        lookupKey email2
            (begin_register_state email fresh_user_id fresh_challenge st).challenges =
          lookupKey email2 st.challenges) ∧
    (∀ email fresh_challenge st st' opts,
      begin_login email fresh_challenge st = .ok (st', opts) →
      lookupKey email st'.challenges = some fresh_challenge ∧
      ∀ email2, email2 ≠ email →
        lookupKey email2 st'.challenges = lookupKey email2 st.challenges) := by
  constructor
  · intro email fresh_user_id fresh_challenge st
    rcases begin_register_state_char email fresh_user_id fresh_challenge st with
      ⟨hnone, heq⟩ | ⟨u, hu, heq⟩ <;> rw [heq]
    all_goals
      refine ⟨lookupKey_insertKey_self email fresh_challenge st.challenges, ?_⟩
    all_goals
      intro email2 hne2
      rw [show ({ users := _, challenges := insertKey email fresh_challenge st.challenges } :
        ServerState).challenges = insertKey email fresh_challenge st.challenges from rfl,
        lookupKey_insertKey, if_neg (fun hh => hne2 hh.symm)]
  · intro email fresh_challenge st st' opts h
    obtain ⟨hch, hus⟩ := begin_login_ok_elim email fresh_challenge st st' opts h
    rw [hch]
    refine ⟨lookupKey_insertKey_self _ _ _, ?_⟩
    intro email2 hne2
    rw [lookupKey_insertKey, if_neg (fun hh => hne2 hh.symm)]

/-- C4 witness: the amended theorem applied to the example trace's
`begin_register` and `begin_login` calls. -/
theorem C4_witness :
    lookupKey "a" exSt1.challenges = some exCh1 ∧
    lookupKey "b" exSt1.challenges = none ∧
    lookupKey "a" exSt5.challenges = some exCh3 := by
  have h1 := C4_single_shared_challenge_slot.1 "a" exUid exCh1 initState
  have h2 := C4_single_shared_challenge_slot.2 "a" exCh3 exSt3 exSt5
    ⟨RP_ID, exCh3, [[0]]⟩ (by rfl)
  exact ⟨h1.1, (h1.2 "b" (by decide)).trans (by rfl), h2.1⟩

/-! ## Claim C5 -/

/-- C5 counterexample: in `exSt2` the identity `"a"` has exactly one enrolled
credential (stored id "AA"), yet the options returned by the next
`begin_register` carry an empty exclusion list, not that credential id. -/
theorem C5_counterexample :
    lookupKey "a" exSt2.users = some ⟨exUid, [⟨"AA", [9], 0⟩]⟩ ∧
    (begin_register "a" exUid exCh2 exSt2).2.exclude_credentials = [] := by
  exact ⟨by rfl, by rfl⟩

/-- C5 (amended): `begin_register` never builds an exclusion list: the call to
`generate_registration_options` passes no `exclude_credentials`, so for every
identity and state the returned options carry an empty exclusion list and
already-registered credential ids are not excluded from re-registration. -/
theorem C5_no_exclusion_list (email : String) (fresh_user_id fresh_challenge : List Nat)
    (st : ServerState) :
    (begin_register email fresh_user_id fresh_challenge st).2.exclude_credentials = [] := by
  cases hu : lookupKey email st.users with
  | none => simp [begin_register, generate_registration_options, hu]
  | some u => simp [begin_register, generate_registration_options, hu]

/-! ## Claim C6 -/

/-- C6: a successful `finish_login` returns `{status := "ok", user := email,
login_time := now}` and sets the matched credential's stored signature counter
to the authenticator-reported `new_sign_count`. -/
theorem C6_successful_login_updates_counter (email : String) (credential : AuthResponse)
    (now : Nat) (st : ServerState) (u : UserRecord) (c : DeviceCredential) (ch : List Nat)
    (hu : lookupKey email st.users = some u)
    (hch : lookupKey email st.challenges = some ch) (hne : ch ≠ [])
    (hc : findCredential credential.id u.credentials = some c)
    (hchal : credential.challenge = ch) (hrp : credential.rp_id = RP_ID)
    (ho : credential.origin = ORIGIN) (hpk : credential.signed_by = c.public_key)
    (hcnt : c.counter < credential.new_sign_count
      ∨ (credential.new_sign_count = 0 ∧ c.counter = 0)) :
    ∃ st' : ServerState,
      finish_login email credential now st = .ok (st', ⟨"ok", email, now⟩) ∧
      ∃ u', lookupKey email st'.users = some u' ∧
        findCredential credential.id u'.credentials =
          some ⟨c.id, c.public_key, credential.new_sign_count⟩ := by
  have hver : verify_authentication_response credential ch RP_ID ORIGIN
      c.public_key c.counter = some ⟨credential.new_sign_count⟩ := by
    unfold verify_authentication_response
    rw [if_pos ⟨hchal, hrp, ho, hpk, hcnt⟩]
  refine ⟨{ users := insertKey email ⟨u.id, updateFirstCounter credential.id
              credential.new_sign_count u.credentials⟩ st.users,
            challenges := eraseKey email st.challenges }, ?_, ?_⟩
  · simp [finish_login, hu, hch, hne, hc, hver]
  · refine ⟨⟨u.id, updateFirstCounter credential.id credential.new_sign_count
      u.credentials⟩, ?_, ?_⟩
    · exact lookupKey_insertKey_self email _ st.users
    · show findCredential credential.id (updateFirstCounter credential.id
        credential.new_sign_count u.credentials) = _
      rw [findCredential_updateFirstCounter, hc]
      rfl

/-- C6 witness: the theorem applied to a concrete one-credential state with
stored counter 0 and an assertion reporting counter 7. -/
theorem C6_witness :
    ∃ st' : ServerState,
      finish_login "a" (⟨"AA", exCh1, ORIGIN, RP_ID, [9], 7⟩ : AuthResponse) 42
          (⟨[("a", ⟨exUid, [⟨"AA", [9], 0⟩]⟩)], [("a", exCh1)]⟩ : ServerState) =
        .ok (st', ⟨"ok", "a", 42⟩) ∧
      ∃ u', lookupKey "a" st'.users = some u' ∧
        findCredential "AA" u'.credentials = some ⟨"AA", [9], 7⟩ :=
  C6_successful_login_updates_counter "a" ⟨"AA", exCh1, ORIGIN, RP_ID, [9], 7⟩ 42
    ⟨[("a", ⟨exUid, [⟨"AA", [9], 0⟩]⟩)], [("a", exCh1)]⟩
    ⟨exUid, [⟨"AA", [9], 0⟩]⟩ ⟨"AA", [9], 0⟩ exCh1
    (by rfl) (by rfl) (by decide) (by rfl) rfl rfl rfl rfl (by decide)

/-! ## Claim C7 -/

/-- C7: the credential id round-trip is lossless: the id stored by
`finish_register` decodes (through `begin_login`'s pad-and-decode) back to the
original bytes; the stored encoding is injective on byte strings, so the
canonical base64url string echoed by the client equals the stored string
exactly when the underlying bytes are equal; and `finish_login`'s equality
lookup finds the stored credential under that string. -/
theorem C7_round_trip (credential_id : List Nat)
    (hbytes : ∀ x ∈ credential_id, x < 256) :
    decodeStoredId (storedCredentialId credential_id) = some credential_id ∧
    (∀ pk n, allowCredentialIds [⟨storedCredentialId credential_id, pk, n⟩] =
      some [credential_id]) ∧
    (∀ credential_id2, (∀ x ∈ credential_id2, x < 256) →
      (storedCredentialId credential_id = storedCredentialId credential_id2 ↔
        credential_id = credential_id2)) ∧
    (∀ pk n rest, findCredential (storedCredentialId credential_id)
        (⟨storedCredentialId credential_id, pk, n⟩ :: rest) =
      some ⟨storedCredentialId credential_id, pk, n⟩) := by
  refine ⟨decodeStoredId_storedCredentialId _ hbytes, ?_, ?_, ?_⟩
  · intro pk n
    simp [allowCredentialIds, decodeStoredId_storedCredentialId _ hbytes]
  · intro credential_id2 h2
    constructor
    · intro he
      have h1 := decodeStoredId_storedCredentialId credential_id hbytes
      rw [he, decodeStoredId_storedCredentialId credential_id2 h2] at h1
      injection h1 with h3
      exact h3.symm
    · rintro rfl
      rfl
  · intro pk n rest
    simp [findCredential]

/-- C7 witness: the round trip evaluated on the concrete four-byte credential
id `[0, 1, 2, 250]` (whose unpadded encoding exercises the padding fix). -/
theorem C7_witness :
    decodeStoredId (storedCredentialId [0, 1, 2, 250]) = some [0, 1, 2, 250] ∧
    allowCredentialIds [⟨storedCredentialId [0, 1, 2, 250], [9], 3⟩] =
      some [[0, 1, 2, 250]] := by
  have h := C7_round_trip [0, 1, 2, 250] (by decide)
  exact ⟨h.1, h.2.1 [9] 3⟩

/-! ## Claim C8 -/

/-- C8 counterexample: `exSt4` is reachable — it registers the same
credential id `[0]` for `"a"` twice — and its credential list for `"a"`
stores the id "AA" twice, refuting per-identity uniqueness of credential ids
as an invariant of all reachable states. -/
theorem C8_counterexample :
    Reachable exSt4 ∧
    lookupKey "a" exSt4.users = some ⟨exUid, [⟨"AA", [9], 0⟩, ⟨"AA", [9], 0⟩]⟩ ∧
    ¬ credsUnique exSt4 := by
  refine ⟨?_, by rfl, ?_⟩
  · exact Reachable.step (Reachable.step (Reachable.step (Reachable.step Reachable.init
      (Step.beginReg "a" exUid exCh1 initState))
      (Step.finishReg "a" (exRegResponse exCh1 [0]) exSt1))
      (Step.beginReg "a" exUid exCh2 exSt2))
      (Step.finishReg "a" (exRegResponse exCh2 [0]) exSt3)
  · intro hcu
    have h := hcu "a" ⟨exUid, [⟨"AA", [9], 0⟩, ⟨"AA", [9], 0⟩]⟩ (by rfl)
    exact absurd h (by decide)

/-- C8 (amended): per-identity uniqueness of credential ids is an invariant of
exactly those traces in which every verified registration enrolls a stored
credential id not already in the identity's list — the code appends without a
duplicate check, so freshness of the enrolled id must be assumed. -/
theorem C8_unique_under_fresh_registrations {st : ServerState}
    (h : FreshReachable st) : credsUnique st := by
  induction h with
  | init =>
      intro email u hu
      simp [initState, lookupKey] at hu
  | step hr hs ih => exact freshStep_credsUnique hs ih

/-- C8 witness: the amended invariant evaluated on the fresh two-step trace
registering a single credential. -/
theorem C8_witness : credsUnique exSt2 := by
  refine C8_unique_under_fresh_registrations ?_
  refine FreshReachable.step (FreshReachable.step FreshReachable.init
    (FreshStep.beginReg "a" exUid exCh1 initState)) ?_
  refine FreshStep.finishReg "a" (exRegResponse exCh1 [0]) exSt1 ?_
  intro u hu
  have h0 : lookupKey "a" exSt1.users = some ⟨exUid, []⟩ := by rfl
  rw [h0] at hu
  injection hu with h1
  rw [← h1]
  decide

/-! ## Claim C9 -/

/-- C9: user handles are created once and never change: the first
`begin_register` for an identity creates its record with the fresh handle and
an empty credential list; a later `begin_register` returns the stored handle
in the options and leaves the record unchanged; and no handler invocation
(registration or authentication, success or failure) changes the stored
handle of any identity. -/
theorem C9_user_handle_immutable :
    (∀ email fresh_user_id fresh_challenge st,
      lookupKey email st.users = none →
      lookupKey email
          (begin_register_state email fresh_user_id fresh_challenge st).users =
        some ⟨fresh_user_id, []⟩) ∧
    (∀ email fresh_user_id fresh_challenge st u,
      lookupKey email st.users = some u →
      (begin_register email fresh_user_id fresh_challenge st).2.user_id = u.id ∧
      lookupKey email
          (begin_register_state email fresh_user_id fresh_challenge st).users =
        some u) ∧
    (∀ st st' : ServerState, Step st st' → ∀ email u,
      lookupKey email st.users = some u →
      ∃ u', lookupKey email st'.users = some u' ∧ u'.id = u.id) := by
  refine ⟨?_, ?_, ?_⟩
  · intro email fresh_user_id fresh_challenge st hnone
    simp [begin_register_state, begin_register, hnone, lookupKey_insertKey_self]
  · intro email fresh_user_id fresh_challenge st u hu
    constructor
    · simp [begin_register, hu, generate_registration_options]
    · simp [begin_register_state, begin_register, hu, generate_registration_options]
  · intro st st' hstep
    exact step_users_id_mono hstep

/-- C9 witness: the three parts evaluated on the example trace. -/
theorem C9_witness :
    lookupKey "a" exSt1.users = some ⟨exUid, []⟩ ∧
    (begin_register "a" exUid exCh2 exSt1).2.user_id = exUid ∧
    (∃ u', lookupKey "a" exSt2.users = some u' ∧ u'.id = exUid) := by
  refine ⟨?_, ?_, ?_⟩
  · exact C9_user_handle_immutable.1 "a" exUid exCh1 initState (by rfl)
  · exact (C9_user_handle_immutable.2.1 "a" exUid exCh2 exSt1 ⟨exUid, []⟩ (by rfl)).1
  · exact C9_user_handle_immutable.2.2 exSt1 exSt2
      (Step.finishReg "a" (exRegResponse exCh1 [0]) exSt1) "a" ⟨exUid, []⟩ (by rfl)

/-! ## Claim C10 -/

/-- C10: in every reachable state every identity with a pending challenge also
has a user record (the challenge store's domain is contained in the user
store's domain), user records are never deleted by any step, and consequently
`finish_register`'s unguarded `users[email]` access never raises `KeyError`. -/
theorem C10_challenge_domain_safe {st : ServerState} (h : Reachable st) :
    (∀ email, lookupKey email st.challenges ≠ none →
      lookupKey email st.users ≠ none) ∧
    (∀ email credential, finish_register email credential st ≠ .error .keyError) ∧
    (∀ st', Step st st' → ∀ email,
      lookupKey email st.users ≠ none → lookupKey email st'.users ≠ none) := by
  refine ⟨reachable_challenge_dom h, ?_, ?_⟩
  · intro email credential hcontra
    obtain ⟨hchne, hunone⟩ := finish_register_keyError_elim email credential st hcontra
    exact reachable_challenge_dom h email hchne hunone
  · intro st' hs email
    exact step_users_ne_none hs email

/-- C10 witness: the safety conclusions evaluated at the reachable state
`exSt3`. -/
theorem C10_witness :
    lookupKey "a" exSt3.users ≠ none ∧
    finish_register "b" (exBadRegResponse exCh1) exSt3 ≠ .error .keyError := by
  have h := C10_challenge_domain_safe (Reachable.step (Reachable.step (Reachable.step
    Reachable.init (Step.beginReg "a" exUid exCh1 initState))
    (Step.finishReg "a" (exRegResponse exCh1 [0]) exSt1))
    (Step.beginReg "a" exUid exCh2 exSt2))
  exact ⟨h.1 "a" (by decide), h.2.1 "b" (exBadRegResponse exCh1)⟩
